import Mathlib

/-!
Verification development for the AgenticX-GraphRAG retrieval kernel.

The Lean definitions below are a shallow embedding of the Python sources
`query_processor.py`, `enhanced_retriever.py` and `demo.py`.  Pure Python
functions become Lean functions on `String`, `List` and `ℚ` (Python floats
are modelled as exact rationals; the scores and thresholds involved are
small decimal literals, for which float and rational comparison agree).
External effects (the base retriever, the graph retriever, the Neo4j
storage, the `jieba` segmenter inside the query analyzer) are modelled as
explicit environment parameters; a call that may raise is an
`Except String` value, and a caught exception is the `.error` case.
-/

/-! ### String helpers (Python string semantics over `List Char`)

Python indexes strings by code point; Lean's `String.data` is the list of
code points, so the helpers below work on `List Char`.  `Char.toLower`
only lowers ASCII letters, which matches Python on the ASCII inputs used
throughout; all CJK text is unaffected by lowering in both languages. -/

/-- `l.take`-based model of the Python slice `s[:n]`. -/
def strTake (s : String) (n : ℕ) : String := ⟨s.data.take n⟩

/-- Model of the Python slice `s[-n:]` (the last `n` code points). -/
def strTakeLast (s : String) (n : ℕ) : String := ⟨s.data.drop (s.data.length - n)⟩

/-- Model of Python `s.lower()` (ASCII lowering). -/
def strLower (s : String) : String := ⟨s.data.map Char.toLower⟩

/-- `dropPrefixChars needle l` returns the remainder of `l` after `needle`
when `needle` is a prefix of `l`, else `none`. -/
def dropPrefixChars : List Char → List Char → Option (List Char)
  | [], l => some l
  | _ :: _, [] => none
  | a :: as, b :: bs => if a = b then dropPrefixChars as bs else none

/-- Whether `needle` occurs as a contiguous sublist of `l`
(Python `needle in s`). -/
def containsSubChars (needle : List Char) : List Char → Bool
  | [] => (dropPrefixChars needle []).isSome
  | l@(_ :: t) => (dropPrefixChars needle l).isSome || containsSubChars needle t

/-- Python `needle in s` on strings. -/
def strContains (s needle : String) : Bool := containsSubChars needle.data s.data

/-- Model of Python `s.replace(old, new)` for a non-empty needle
`n0 :: ns` (left-to-right, non-overlapping).  The recursion is driven by
a fuel argument so that it is structural; since every step consumes at
least one character of the subject list, fuel equal to the subject's
length (as passed by `pyReplace`) is never exhausted. -/
def replaceChars (n0 : Char) (ns repl : List Char) : ℕ → List Char → List Char
  | _, [] => []
  | 0, l => l
  | fuel + 1, c :: rest =>
    match dropPrefixChars (n0 :: ns) (c :: rest) with
    | some rem => repl ++ replaceChars n0 ns repl fuel rem
    | none => c :: replaceChars n0 ns repl fuel rest

/-- Python `s.replace(old, new)`; `old = ""` (which Python treats
specially) does not occur in the embedded code, and is mapped to the
identity. -/
def pyReplace (s old new : String) : String :=
  match old.data with
  | [] => s
  | c :: cs => ⟨replaceChars c cs new.data s.data.length s.data⟩

/-- Splits on runs of whitespace, dropping empty tokens: the combination
of Python `s.split()` and (after stripping) `re.sub(r'\s+', ' ', s)`. -/
def wordsAux (acc : List Char) : List Char → List (List Char)
  | [] => if acc.isEmpty then [] else [acc.reverse]
  | c :: rest =>
    if c.isWhitespace then
      if acc.isEmpty then wordsAux [] rest else acc.reverse :: wordsAux [] rest
    else wordsAux (c :: acc) rest

/-- Python `s.split()`: whitespace-separated words. -/
def pyWords (s : String) : List String := (wordsAux [] s.data).map (fun l => ⟨l⟩)

/-- First-occurrence-keeping deduplication, the literal loop
`for q in queries: if q not in unique: unique.append(q)`. -/
def pyDedupGo (acc : List String) : List String → List String
  | [] => acc
  | q :: rest => if q ∈ acc then pyDedupGo acc rest else pyDedupGo (acc ++ [q]) rest

/-- Python first-occurrence dedup of a list of strings. -/
def pyDedup (l : List String) : List String := pyDedupGo [] l

/-! ### `query_processor.py` — `ProcessedQuery` and the pure analyzer parts -/

/-- `ProcessedQuery` dataclass from `query_processor.py`.  Confidence is a
float in the source; all values it ever takes are the literals
0.5 / 0.7 / 0.9, represented exactly by `ℚ`. -/
structure ProcessedQuery where
  original : String
  normalized : String
  keywords : List String
  entities : List String
  expanded_terms : List String
  query_type : String
  confidence : ℚ
deriving DecidableEq, Repr

/-- `ChineseQueryProcessor._normalize_query`: strip + collapse whitespace,
unify full-width punctuation, expand the four colloquialisms. -/
def normalize_query (q : String) : String :=
  let n := String.intercalate " " (pyWords q)
  let n := pyReplace (pyReplace n "？" "?") "！" "!"
  let n := pyReplace n "是啥" "是什么"
  let n := pyReplace n "咋样" "怎么样"
  let n := pyReplace n "咋办" "怎么办"
  pyReplace n "啥意思" "什么意思"

/-- `re.search(r'(.+?)LIT', q)`: some non-newline character directly
precedes an occurrence of the literal `LIT`. -/
def matchAfterOne (needle : List Char) : List Char → Bool
  | [] => false
  | c :: rest => (c ≠ '\n' && (dropPrefixChars needle rest).isSome) || matchAfterOne needle rest

/-- `re.search(r'LIT(.+?)', q)`: an occurrence of the literal `LIT` is
directly followed by at least one non-newline character. -/
def matchLitThenOne (needle : List Char) : List Char → Bool
  | [] =>
    (match dropPrefixChars needle [] with
     | some (c :: _) => c ≠ '\n'
     | _ => false)
  | l@(_ :: t) =>
    (match dropPrefixChars needle l with
     | some (c :: _) => c ≠ '\n'
     | _ => false) || matchLitThenOne needle t

/-- `ChineseQueryProcessor._identify_query_type`: the seven regex patterns
of `question_patterns` in insertion order, then the keyword fallbacks.
Returns `(query_type, confidence)`. -/
def identify_query_type (query : String) : String × ℚ :=
  if matchAfterOne "是什么".data query.data then ("definition", 0.9)
  else if matchAfterOne "是啥".data query.data then ("definition", 0.9)
  else if matchLitThenOne "什么是".data query.data then ("definition", 0.9)
  else if matchAfterOne "怎么样".data query.data then ("evaluation", 0.9)
  else if matchAfterOne "如何".data query.data then ("method", 0.9)
  else if matchAfterOne "的作用".data query.data then ("function", 0.9)
  else if matchAfterOne "的特点".data query.data then ("feature", 0.9)
  else if strContains query "什么" || strContains query "是" || strContains query "定义" then
    ("definition", 0.7)
  else if strContains query "如何" || strContains query "怎么" || strContains query "方法" then
    ("method", 0.7)
  else if strContains query "为什么" || strContains query "原因" then ("reason", 0.7)
  else ("general", 0.5)

/-- `ChineseQueryProcessor.generate_search_queries`: original, normalized
(when different), the joined keywords (when ≥ 2), each entity longer than
2 characters, and a blend of up to 3 important expanded terms; finally
first-occurrence dedup. -/
def generate_search_queries (pq : ProcessedQuery) : List String :=
  let important := pq.expanded_terms.filter (fun t => t.length > 2 && !pq.keywords.contains t)
  pyDedup
    (pq.original ::
      ((if pq.normalized ≠ pq.original then [pq.normalized] else []) ++
        (if pq.keywords.length > 1 then [String.intercalate " " pq.keywords] else []) ++
        pq.entities.filter (fun e => e.length > 2) ++
        (if pq.expanded_terms ≠ [] ∧ important ≠ [] then
          [String.intercalate " " (important.take 3)]
        else [])))

/-! ### `enhanced_retriever.py` — data model -/

/-- Values stored in a `RetrievalResult.metadata` dict.  The embedded code
stores strings, lists of strings (Neo4j labels) and optional strings
(entity ids); only the string-valued key `source_type` is ever read back. -/
inductive MetaVal where
  | str : String → MetaVal
  | strList : List String → MetaVal
  | optStr : Option String → MetaVal
deriving DecidableEq, Repr

/-- `RetrievalResult` dataclass (the fallback definition in
`enhanced_retriever.py`): content, score, metadata dict, optional source
and chunk id.  The metadata dict is an association list with unique keys,
maintained by `dictSet`. -/
structure RetrievalResult where
  content : String
  score : ℚ
  metadata : List (String × MetaVal)
  source : Option String := none
  chunk_id : Option String := none
deriving DecidableEq, Repr

/-- Python `d[k] = v` on a string-keyed dict modelled as an association
list with unique keys. -/
def dictSet (d : List (String × MetaVal)) (k : String) (v : MetaVal) : List (String × MetaVal) :=
  match d with
  | [] => [(k, v)]
  | (k', v') :: rest => if k' = k then (k, v) :: rest else (k', v') :: dictSet rest k v

/-- Python `d.get(k, dflt)`. -/
def dictGetD (d : List (String × MetaVal)) (k : String) (dflt : MetaVal) : MetaVal :=
  match d with
  | [] => dflt
  | (k', v) :: rest => if k' = k then v else dictGetD rest k dflt

/-- `RetrievalStrategy` dataclass. -/
structure RetrievalStrategy where
  name : String
  vector_threshold : ℚ
  graph_threshold : ℚ
  bm25_min_score : ℚ
  top_k : ℕ
  description : String
deriving DecidableEq, Repr

/-- The five-strategy ladder built in `EnhancedRetriever.__init__`. -/
def strategies : List RetrievalStrategy :=
  [⟨"strict", 0.5, 0.4, 0.25, 30, "严格模式 - 高质量结果"⟩,
   ⟨"standard", 0.3, 0.2, 0.15, 60, "标准模式 - 平衡质量和召回"⟩,
   ⟨"relaxed", 0.2, 0.1, 0.08, 100, "宽松模式 - 高召回率"⟩,
   ⟨"fuzzy", 0.15, 0.08, 0.04, 150, "模糊模式 - 最大召回"⟩,
   ⟨"aggressive", 0.1, 0.05, 0.02, 200, "激进模式 - 兜底策略"⟩]

/-- `EnhancedRetriever._select_start_strategy`: the top-down rule chain
choosing the starting ladder index. -/
def select_start_strategy (pq : ProcessedQuery) : ℕ :=
  let complex_query_types :=
    ["specific_inquiry", "commitment_inquiry", "enumeration", "classification", "service_inquiry"]
  if pq.query_type ∈ complex_query_types then 2
  else if pq.original.length > 20 then 2
  else if pq.keywords.length ≥ 3 then 1
  else if pq.confidence > 0.8 ∧ pq.entities.length > 0 ∧ pq.original.length < 15 then 0
  else if pq.confidence > 0.6 then 1
  else 2

/-! ### Deduplication (`_deduplicate_results`, `_is_content_similar`) -/

/-- `EnhancedRetriever._is_content_similar`: length-imbalance short
circuit, Jaccard word overlap of the lowered word sets, and the
first-100 / last-100 character comparison.  This is the *total*
approximation used inside the pipeline embedding: on two empty contents
the source raises `ZeroDivisionError` (`abs(len1-len2)/max(len1,len2)`
with `max = 0`), whereas the `ℚ` model yields `0/0 = 0` and answers
"not similar".  The fault-faithful version, which raises exactly where
the source does, is `is_content_similarE` below; the two agree on every
comparison the source completes. -/
def is_content_similar (content1 content2 : String) (threshold : ℚ) : Bool :=
  let len1 := content1.data.length
  let len2 := content2.data.length
  if ((((max len1 len2 - min len1 len2 : ℕ) : ℚ)) / ((max len1 len2 : ℕ) : ℚ)) > 0.3 then false
  else
    let words1 := pyDedup (pyWords (strLower content1))
    let words2 := pyDedup (pyWords (strLower content2))
    if words1.isEmpty || words2.isEmpty then false
    else
      let intersection := (words1.filter (fun w => words2.contains w)).length
      let union := words1.length + (words2.filter (fun w => !words1.contains w)).length
      let jaccard_similarity : ℚ := if union > 0 then (intersection : ℚ) / (union : ℚ) else 0
      let start_similar := strLower (strTake content1 100) = strLower (strTake content2 100)
      let end_similar := strLower (strTakeLast content1 100) = strLower (strTakeLast content2 100)
      jaccard_similarity > threshold ||
        (start_similar && end_similar && jaccard_similarity > 0.8)

/-- Python `l[-n:]`. -/
def lastN {α : Type} (l : List α) (n : ℕ) : List α := l.drop (l.length - n)

/-- Truthiness of `result.chunk_id` (`Optional[str]`): present and
non-empty. -/
def chunkIdTruthy (r : RetrievalResult) : Option String :=
  match r.chunk_id with
  | some c => if c = "" then none else some c
  | none => none

/-- The main loop of `_deduplicate_results`: `seen` is the
`seen_chunk_ids` set, `acc` the `unique_results` list built so far.  A
result is dropped when its (truthy) chunk id was already seen, or when it
is content-similar (threshold 0.95) to one of the last three admitted
results; a fresh truthy chunk id is recorded even when the result is then
dropped by similarity. -/
def dedupLoop (seen : List String) (acc : List RetrievalResult) :
    List RetrievalResult → List RetrievalResult
  | [] => acc
  | r :: rest =>
    match chunkIdTruthy r with
    | some cid =>
      if cid ∈ seen then dedupLoop seen acc rest
      else
        if (lastN acc 3).any (fun e => is_content_similar r.content e.content 0.95) then
          dedupLoop (cid :: seen) acc rest
        else dedupLoop (cid :: seen) (acc ++ [r]) rest
    | none =>
      if (lastN acc 3).any (fun e => is_content_similar r.content e.content 0.95) then
        dedupLoop seen acc rest
      else dedupLoop seen (acc ++ [r]) rest

/-- The sort relation of `unique_results.sort(key=lambda x: x.score,
reverse=True)`: scores in non-increasing order. -/
def scoreGe (a b : RetrievalResult) : Prop := b.score ≤ a.score

instance : DecidableRel scoreGe := fun a b => inferInstanceAs (Decidable (b.score ≤ a.score))

instance : IsTotal RetrievalResult scoreGe := ⟨fun a b => le_total b.score a.score⟩

instance : IsTrans RetrievalResult scoreGe :=
  ⟨fun _ _ _ h1 h2 => le_trans h2 h1⟩

/-- `EnhancedRetriever._deduplicate_results`: early return on empty input,
the dedup loop, then a stable sort by score descending (Python's stable
`list.sort` coincides with insertion sort for the total preorder
`scoreGe`). -/
def deduplicate_results (results : List RetrievalResult) : List RetrievalResult :=
  if results.isEmpty then []
  else List.insertionSort scoreGe (dedupLoop [] [] results)

/-! #### Fault-faithful deduplication

`_deduplicate_results` contains no `try`: a `ZeroDivisionError` raised
inside `_is_content_similar` (two empty contents) aborts the whole call
and propagates to the caller.  The `…E` versions below embed exactly
that behaviour, with `Except.error` for the raise; on inputs where no
comparison raises they coincide with the total versions above
(`deduplicate_resultsE_ok`). -/

/-- Fault-faithful `_is_content_similar`: identical to
`is_content_similar`, except that comparing two empty contents raises —
`abs(len1 - len2) / max(len1, len2)` divides by zero before any other
branch of the source can run.  When the lengths are not both zero each
division of the source is guarded (`max > 0`, and the Jaccard uses
`if union > 0`), so the body computes exactly `is_content_similar`. -/
def is_content_similarE (content1 content2 : String) (threshold : ℚ) :
    Except String Bool :=
  if max content1.data.length content2.data.length = 0 then .error "ZeroDivisionError"
  else .ok (is_content_similar content1 content2 threshold)

/-- The window loop `for existing in unique_results[-3:]` of
`_deduplicate_results`, fault-faithfully: comparisons run left to right,
the first similar one stops the loop, and a raising comparison aborts
the whole call. -/
def anySimilarE (c : String) : List RetrievalResult → Except String Bool
  | [] => .ok false
  | e :: rest =>
    match is_content_similarE c e.content 0.95 with
    | .error m => .error m
    | .ok true => .ok true
    | .ok false => anySimilarE c rest

/-- Fault-faithful main loop of `_deduplicate_results`: as `dedupLoop`,
but a raising similarity comparison aborts the whole call.  A result
whose (truthy) chunk id was already seen skips the window loop entirely,
so it can never raise. -/
def dedupLoopE (seen : List String) (acc : List RetrievalResult) :
    List RetrievalResult → Except String (List RetrievalResult)
  | [] => .ok acc
  | r :: rest =>
    match chunkIdTruthy r with
    | some cid =>
      if cid ∈ seen then dedupLoopE seen acc rest
      else
        match anySimilarE r.content (lastN acc 3) with
        | .error m => .error m
        | .ok true => dedupLoopE (cid :: seen) acc rest
        | .ok false => dedupLoopE (cid :: seen) (acc ++ [r]) rest
    | none =>
      match anySimilarE r.content (lastN acc 3) with
      | .error m => .error m
      | .ok true => dedupLoopE seen acc rest
      | .ok false => dedupLoopE seen (acc ++ [r]) rest

/-- Fault-faithful `_deduplicate_results`: early return on empty input,
the dedup loop, and the score-descending sort only if the loop returned
normally (an exception propagates before the `sort` line runs). -/
def deduplicate_resultsE (results : List RetrievalResult) :
    Except String (List RetrievalResult) :=
  if results.isEmpty then .ok []
  else (dedupLoopE [] [] results).map (List.insertionSort scoreGe)

deriving instance DecidableEq for Except

/-! ### `enhanced_retriever.py` — the retrieval pipeline

External collaborators are collected in a `RetrieverEnv`:
`analyze` stands for `self.query_processor.process_query` (whose keyword
and entity fields depend on the external `jieba` segmenter, so the
analyzer output is kept abstract), `base`/`graph` for the optional
`base_retriever.retrieve` / `graph_retriever.retrieve` coroutines
(arguments: query, top_k, min_score), `entityQ i term` for
`graph_storage.execute_query` on the `i`-th of the four Cypher templates
of `_direct_entity_search`, `fullTextQ term` for the full-text Cypher of
`_full_text_search`, `hasStorage` for the storage manager and its Neo4j
handle being available, and `pipelineError` for an exception raised
inside the top-level `try` of `retrieve_with_fallback` (caught by its
`except`). -/

/-- A row returned by one of the four direct-entity Cypher queries. -/
structure EntityRow where
  name : Option String := none
  description : Option String := none
  rtype : List String := []
  rid : Option String := none
  relevance : ℚ := 0.5
deriving DecidableEq, Repr

/-- A row returned by the full-text Cypher query: the matched node's
relevant properties, its labels, and the matched property names. -/
structure FullTextRow where
  name : Option String := none
  content : Option String := none
  description : Option String := none
  node_type : List String := []
  matched_props : List String := []
deriving DecidableEq, Repr

/-- Environment of external collaborators for `EnhancedRetriever`. -/
structure RetrieverEnv where
  analyze : String → ProcessedQuery
  base : Option (String → ℕ → ℚ → Except String (List RetrievalResult))
  graph : Option (String → ℕ → ℚ → Except String (List RetrievalResult))
  hasStorage : Bool
  entityQ : ℕ → String → Except String (List EntityRow)
  fullTextQ : String → Except String (List FullTextRow)
  pipelineError : Option String

/-- Tags `result.metadata['source_type'] = st`. -/
def tagSourceType (st : String) (r : RetrievalResult) : RetrievalResult :=
  { r with metadata := dictSet r.metadata "source_type" (MetaVal.str st) }

/-- The graph-retrieval block of `_execute_strategy`: skipped without a
graph retriever; a raising call is caught by the inner `except` and
contributes nothing; otherwise results are filtered by the graph
threshold and tagged `source_type = graph`. -/
def graphPart (env : RetrieverEnv) (strategy : RetrievalStrategy) (query : String) :
    List RetrievalResult :=
  match env.graph with
  | none => []
  | some g =>
    match g query (strategy.top_k / 2) strategy.graph_threshold with
    | .error _ => []
    | .ok graph_results =>
      ((graph_results.filter (fun r => strategy.graph_threshold ≤ r.score)).map
        (tagSourceType "graph"))

/-- The final per-source filter of `_execute_strategy`: the threshold
matching each result's own `source_type` tag. -/
def finalFilter (strategy : RetrievalStrategy) (results : List RetrievalResult) :
    List RetrievalResult :=
  results.filter (fun r =>
    let st := dictGetD r.metadata "source_type" (MetaVal.str "unknown")
    if st = MetaVal.str "graph" then decide (strategy.graph_threshold ≤ r.score)
    else if st = MetaVal.str "vector" then decide (strategy.vector_threshold ≤ r.score)
    else decide (strategy.bm25_min_score ≤ r.score))

/-- `EnhancedRetriever._execute_strategy`: hybrid retrieval filtered by
the vector threshold and tagged `vector`, graph retrieval via
`graphPart`, then the per-source final filter.  A raising base-retriever
call is caught by the function's outer `except`, which returns `[]`. -/
def execute_strategy (env : RetrieverEnv) (strategy : RetrievalStrategy) (query : String) :
    List RetrievalResult :=
  match env.base with
  | some f =>
    match f query strategy.top_k strategy.vector_threshold with
    | .error _ => []
    | .ok hybrid_results =>
      let filtered_hybrid :=
        (hybrid_results.filter (fun r => strategy.vector_threshold ≤ r.score)).map
          (tagSourceType "vector")
      finalFilter strategy (filtered_hybrid ++ graphPart env strategy query)
  | none => finalFilter strategy (graphPart env strategy query)

/-- The per-strategy inner loop of `retrieve_with_fallback`: one
`_execute_strategy` call per search query, results concatenated. -/
def strategyRawResults (env : RetrieverEnv) (strategy : RetrievalStrategy) :
    List String → List RetrievalResult
  | [] => []
  | q :: rest => execute_strategy env strategy q ++ strategyRawResults env strategy rest

/-- The strategy ladder loop: try each remaining strategy in order, and
lock in the first whose deduplicated result list is non-empty. -/
def tryStrategies (env : RetrieverEnv) (searchQueries : List String) :
    List RetrievalStrategy → Option (List RetrievalResult × RetrievalStrategy)
  | [] => none
  | s :: rest =>
    let unique_results := deduplicate_results (strategyRawResults env s searchQueries)
    if unique_results.isEmpty then tryStrategies env searchQueries rest
    else some (unique_results, s)

/-- Conversion of a direct-entity Cypher row to a `RetrievalResult`
(`if result['name']:` guard, description truncated to 500 chars). -/
def entityRowToResult (term : String) (row : EntityRow) : Option RetrievalResult :=
  match row.name with
  | none => none
  | some nm =>
    if nm = "" then none
    else
      some
        { content :=
            "实体: " ++ nm ++
              (match row.description with
               | some d => if d = "" then "" else "\n描述: " ++ strTake d 500 ++ "..."
               | none => ""),
          score := row.relevance,
          metadata :=
            [("type", MetaVal.str "entity"), ("entity_name", MetaVal.str nm),
             ("entity_type", MetaVal.strList row.rtype), ("entity_id", MetaVal.optStr row.rid),
             ("search_source", MetaVal.str "direct_entity"), ("search_term", MetaVal.str term)],
          source := some "knowledge_graph" }

/-- The inner loop of `_direct_entity_search` over the four Cypher
templates for one term; a raising query is caught and skipped. -/
def entityQueryLoop (env : RetrieverEnv) (term : String) : List ℕ → List RetrievalResult
  | [] => []
  | i :: rest =>
    (match env.entityQ i term with
     | .error _ => []
     | .ok rows => rows.filterMap (entityRowToResult term)) ++ entityQueryLoop env term rest

/-- The outer loop of `_direct_entity_search` over the search terms
(entities ++ keywords ++ [original]); terms shorter than 1 char skipped. -/
def entityTermLoop (env : RetrieverEnv) : List String → List RetrievalResult
  | [] => []
  | t :: rest =>
    (if t.length < 1 then [] else entityQueryLoop env t [0, 1, 2, 3]) ++ entityTermLoop env rest

/-- Truthiness of an optional string property. -/
def optTruthy : Option String → Bool
  | some s => s ≠ ""
  | none => false

/-- Conversion of a full-text row to a `RetrievalResult`: the content
parts present on the node, score 0.3; nodes with no usable parts are
dropped. -/
def ftRowToResult (term : String) (row : FullTextRow) : Option RetrievalResult :=
  let content_parts :=
    (match row.name with
     | some nm => if nm = "" then [] else ["名称: " ++ nm]
     | none => []) ++
    (match row.content with
     | some c => if c = "" then [] else ["内容: " ++ strTake c 300 ++ "..."]
     | none => []) ++
    (match row.description with
     | some d => if d = "" then [] else ["描述: " ++ strTake d 200 ++ "..."]
     | none => [])
  if content_parts.isEmpty then none
  else
    some
      { content := String.intercalate "\n" content_parts,
        score := 0.3,
        metadata :=
          [("type", MetaVal.str "full_text_match"), ("node_type", MetaVal.strList row.node_type),
           ("matched_properties", MetaVal.strList row.matched_props),
           ("search_source", MetaVal.str "full_text"), ("search_term", MetaVal.str term)],
        source := some "knowledge_graph" }

/-- `EnhancedRetriever._full_text_search`: loops the terms
([original] ++ keywords, skipping terms shorter than 2); the single
`try` wraps the whole loop, so a raising query aborts the loop but the
results accumulated so far are still returned. -/
def fullTextLoop (env : RetrieverEnv) (acc : List RetrievalResult) :
    List String → List RetrievalResult
  | [] => acc
  | t :: rest =>
    if t.length < 2 then fullTextLoop env acc rest
    else
      match env.fullTextQ t with
      | .error _ => acc
      | .ok rows => fullTextLoop env (acc ++ rows.filterMap (ftRowToResult t)) rest

/-- Round-half-to-even on `ℚ`, the rounding of Python's `format`. -/
def roundHalfEven (q : ℚ) : ℤ :=
  let f := Int.floor q
  let r := q - f
  if r < 1/2 then f
  else if r > 1/2 then f + 1
  else if f % 2 = 0 then f else f + 1

/-- Python `f"{q:.2f}"` on a non-negative rational (the confidences of
the embedded analyzer are 0.5 / 0.7 / 0.9, where float and rational
formatting agree). -/
def formatFixed2 (q : ℚ) : String :=
  let n := (roundHalfEven (q * 100)).natAbs
  let sign := if roundHalfEven (q * 100) < 0 then "-" else ""
  let d := n % 100
  sign ++ toString (n / 100) ++ "." ++ (if d < 10 then "0" else "") ++ toString d

/-- Python comma-join of a list, or the CJK word for "none" when empty. -/
def joinCommaOrWu (l : List String) : String :=
  if l.isEmpty then "无" else String.intercalate ", " l

/-- `EnhancedRetriever._get_fallback_results`: the single advisory result
(content already stripped, as `.strip()` does in the source). -/
def fallbackResult (pq : ProcessedQuery) : RetrievalResult :=
  { content :=
      "很抱歉，没有找到与 \"" ++ pq.original ++ "\" 相关的具体信息。\n\n" ++
        "💡 建议您尝试：\n1. 使用更具体的关键词\n2. 检查拼写是否正确\n" ++
        "3. 尝试相关的同义词\n4. 使用更简单的表达方式\n\n🔍 系统分析：\n" ++
        "- 查询类型: " ++ pq.query_type ++ "\n" ++
        "- 识别的关键词: " ++ joinCommaOrWu pq.keywords ++ "\n" ++
        "- 识别的实体: " ++ joinCommaOrWu pq.entities ++ "\n" ++
        "- 置信度: " ++ formatFixed2 pq.confidence,
    score := 0.1,
    metadata :=
      [("type", MetaVal.str "fallback_help"), ("search_source", MetaVal.str "system_fallback"),
       ("original_query", MetaVal.str pq.original)],
    source := some "system" }

/-- `EnhancedRetriever._direct_entity_search`: entity Cypher queries over
entities ++ keywords ++ [original], then (only when empty) the full-text
scan, then dedup, then (only when still empty) the single fallback
advisory, truncated to 10 results.  Returns `[]` when the storage
manager or the Neo4j storage is unavailable. -/
def direct_entity_search (env : RetrieverEnv) (pq : ProcessedQuery) : List RetrievalResult :=
  if !env.hasStorage then []
  else
    let search_terms := pq.entities ++ pq.keywords ++ [pq.original]
    let results := entityTermLoop env search_terms
    let results :=
      if results.isEmpty then fullTextLoop env [] ([pq.original] ++ pq.keywords) else results
    let unique_results := deduplicate_results results
    let unique_results := if unique_results.isEmpty then [fallbackResult pq] else unique_results
    unique_results.take 10

/-- The retrieval report dict: Python builds dicts with different key
sets on different paths, so every key is optional except `success`. -/
structure RetrievalReport where
  original_query : Option String := none
  processed_query : Option ProcessedQuery := none
  search_queries : Option (List String) := none
  strategy_used : Option String := none
  total_results : Option ℕ := none
  success : Bool
  error : Option String := none
deriving DecidableEq, Repr

/-- The synthesized greeting result of `retrieve_with_fallback`. -/
def greetingResult : RetrievalResult :=
  { content := "你好！我是AgenticX GraphRAG智能问答助手。我可以帮您查询知识库中的信息，请告诉我您想了解什么？",
    score := 1.0,
    metadata := [("type", MetaVal.str "greeting_response"), ("search_source", MetaVal.str "system")] }

/-- The synthesized help result for meaningless queries. -/
def helpResult : RetrievalResult :=
  { content := "请输入具体的问题，我可以帮您查询相关信息。例如：\n• 查询特定概念或实体\n• 询问技术原理\n• 了解产品服务等",
    score := 1.0,
    metadata := [("type", MetaVal.str "help_response"), ("search_source", MetaVal.str "system")] }

/-- `EnhancedRetriever.retrieve_with_fallback`: greeting / meaningless
short circuits, search-query generation, the strategy ladder from the
selected start index, the direct-entity fallback, and the report.  An
exception anywhere inside the top-level `try` (injected via
`env.pipelineError`) is caught and mapped to
`([], {'error': …, 'success': False})`.  The mutable `self.stats`
bookkeeping does not influence the returned value and is not modelled. -/
def retrieve_with_fallback (env : RetrieverEnv) (query : String) :
    List RetrievalResult × RetrievalReport :=
  match env.pipelineError with
  | some e => ([], { success := false, error := some e })
  | none =>
    let pq := env.analyze query
    if pq.query_type = "greeting" then
      ([greetingResult],
       { processed_query := some pq, search_queries := some [query],
         strategy_used := some "greeting_handler", total_results := some 1, success := true })
    else if pq.query_type = "meaningless" then
      ([helpResult],
       { processed_query := some pq, search_queries := some [query],
         strategy_used := some "help_handler", total_results := some 1, success := true })
    else
      let search_queries := generate_search_queries pq
      let start_strategy_idx := select_start_strategy pq
      let step :=
        match tryStrategies env search_queries (strategies.drop start_strategy_idx) with
        | some (unique_results, s) => (unique_results, some s.name)
        | none =>
          let entity_results := direct_entity_search env pq
          if entity_results.isEmpty then ([], none) else (entity_results, some "entity_search")
      (step.1,
       { original_query := some query, processed_query := some pq,
         search_queries := some search_queries,
         strategy_used := some (step.2.getD "none"), total_results := some step.1.length,
         success := !step.1.isEmpty })

/-! ### `demo.py` — `_build_spo_index`

The `KnowledgeGraph`, `Entity` and `Relationship` values come from the
agenticx framework; only the fields read by `_build_spo_index` are
modelled, and `get_entity` is kept abstract as a lookup function.  The
three Python dicts are modelled as insertion-ordered association lists
with unique keys (`dictAppend` is `setdefault`-plus-`append`), and
`json.dumps` — an injective encoding — is modelled as the identity, so
the blob persisted under `spo_index` is the structured index itself. -/

/-- The fields of an agenticx `Entity` read by `_build_spo_index`. -/
structure Entity where
  id : String
  name : String
deriving DecidableEq, Repr

/-- The fields of an agenticx `Relationship` read by `_build_spo_index`
(`relation_type` is the enum's `.value` string). -/
structure Relationship where
  id : String
  source_entity_id : String
  target_entity_id : String
  relation_type : String
deriving DecidableEq, Repr

/-- The in-memory knowledge graph as `_build_spo_index` consumes it:
`relationships.values()` in iteration order, plus the framework's
`get_entity` lookup. -/
structure KnowledgeGraph where
  relationships : List Relationship
  get_entity : String → Option Entity

/-- An entry of `subject_index[subject]`. -/
structure SubjectEntry where
  predicate : String
  object : String
  relationship_id : String
deriving DecidableEq, Repr

/-- An entry of `predicate_index[predicate]`. -/
structure PredicateEntry where
  subject : String
  object : String
  relationship_id : String
deriving DecidableEq, Repr

/-- An entry of `object_index[object]`. -/
structure ObjectEntry where
  subject : String
  predicate : String
  relationship_id : String
deriving DecidableEq, Repr

/-- The SPO index dict of `_build_spo_index`. -/
structure SPOIndex where
  subject_index : List (String × List SubjectEntry)
  predicate_index : List (String × List PredicateEntry)
  object_index : List (String × List ObjectEntry)
deriving DecidableEq, Repr

/-- Python `if k not in d: d[k] = []` followed by `d[k].append(v)` on a
dict modelled as an insertion-ordered association list. -/
def dictAppend {α : Type} (d : List (String × List α)) (k : String) (v : α) :
    List (String × List α) :=
  match d with
  | [] => [(k, [v])]
  | (k', vs) :: rest => if k' = k then (k', vs ++ [v]) :: rest else (k', vs) :: dictAppend rest k v

/-- `d.get(k, [])` on the same dict model. -/
def dictBucket {α : Type} (d : List (String × List α)) (k : String) : List α :=
  match d with
  | [] => []
  | (k', vs) :: rest => if k' = k then vs else dictBucket rest k

/-- One iteration of the `for relationship in relationships.values()`
loop: relationships whose endpoints do not both resolve are skipped. -/
def spoStep (kg : KnowledgeGraph) (acc : SPOIndex) (r : Relationship) : SPOIndex :=
  match kg.get_entity r.source_entity_id, kg.get_entity r.target_entity_id with
  | some source_entity, some target_entity =>
    { subject_index :=
        dictAppend acc.subject_index source_entity.name
          ⟨r.relation_type, target_entity.name, r.id⟩,
      predicate_index :=
        dictAppend acc.predicate_index r.relation_type
          ⟨source_entity.name, target_entity.name, r.id⟩,
      object_index :=
        dictAppend acc.object_index target_entity.name
          ⟨source_entity.name, r.relation_type, r.id⟩ }
  | _, _ => acc

/-- The SPO index built by `_build_spo_index` over the whole graph. -/
def build_spo_index (kg : KnowledgeGraph) : SPOIndex :=
  kg.relationships.foldl (spoStep kg) ⟨[], [], []⟩

/-- The key-value store state after `_build_spo_index` runs:
`kv_storage.set('spo_index', json.dumps(spo_index))` when a key-value
storage is available, otherwise the early return leaves it unchanged. -/
def build_spo_index_run (hasKV : Bool) (kv0 : String → Option SPOIndex) (kg : KnowledgeGraph) :
    String → Option SPOIndex :=
  if hasKV then fun k => if k = "spo_index" then some (build_spo_index kg) else kv0 k
  else kv0

/-! ### Theorems

Batteries marks the `Rat` arithmetic operations `@[irreducible]`; they
are restored to their definitional reducibility here so that concrete
evaluations of the embedded code (whose scores are exact decimal
rationals) can be certified by `decide`. -/

attribute [local semireducible] Rat.ofScientific Rat.mul Rat.inv Rat.add Rat.sub

theorem pyDedupGo_exists_append (l : List String) :
    ∀ acc : List String, ∃ sub, pyDedupGo acc l = acc ++ sub := by
  induction l with
  | nil => intro acc; exact ⟨[], by simp [pyDedupGo]⟩
  | cons q rest ih =>
    intro acc
    by_cases hq : q ∈ acc
    · obtain ⟨sub, hs⟩ := ih acc
      exact ⟨sub, by simp [pyDedupGo, hq, hs]⟩
    · obtain ⟨sub, hs⟩ := ih (acc ++ [q])
      exact ⟨q :: sub, by simp [pyDedupGo, hq, hs]⟩

theorem pyDedupGo_nodup (l : List String) :
    ∀ acc : List String, acc.Nodup → (pyDedupGo acc l).Nodup := by
  induction l with
  | nil => intro acc h; simpa [pyDedupGo] using h
  | cons q rest ih =>
    intro acc h
    by_cases hq : q ∈ acc
    · simpa [pyDedupGo, hq] using ih acc h
    · have : (acc ++ [q]).Nodup := by simp [List.nodup_append, h, hq]
      simpa [pyDedupGo, hq] using ih (acc ++ [q]) this

theorem pyDedupGo_mem (l : List String) :
    ∀ (acc : List String) (x : String), x ∈ acc ∨ x ∈ l → x ∈ pyDedupGo acc l := by
  induction l with
  | nil => intro acc x h; simpa [pyDedupGo] using h.resolve_right (by simp)
  | cons q rest ih =>
    intro acc x h
    by_cases hq : q ∈ acc
    · simp only [pyDedupGo, if_pos hq]
      apply ih
      rcases h with h | h
      · exact Or.inl h
      · rcases List.mem_cons.mp h with h | h
        · exact Or.inl (by rw [h]; exact hq)
        · exact Or.inr h
    · simp only [pyDedupGo, if_neg hq]
      apply ih
      rcases h with h | h
      · exact Or.inl (by simp [h])
      · rcases List.mem_cons.mp h with h | h
        · exact Or.inl (by simp [h])
        · exact Or.inr h

theorem pyDedup_cons_head (a : String) (l : List String) :
    ∃ sub, pyDedup (a :: l) = a :: sub := by
  unfold pyDedup
  simp only [pyDedupGo, List.not_mem_nil, if_false]
  obtain ⟨sub, hs⟩ := pyDedupGo_exists_append l [a]
  exact ⟨sub, by simpa using hs⟩

theorem pyDedup_ne_nil (a : String) (l : List String) : pyDedup (a :: l) ≠ [] := by
  obtain ⟨sub, hs⟩ := pyDedup_cons_head a l
  simp [hs]

theorem pyDedup_head (a : String) (l : List String) : (pyDedup (a :: l)).head? = some a := by
  obtain ⟨sub, hs⟩ := pyDedup_cons_head a l
  simp [hs]

theorem pyDedup_nodup (l : List String) : (pyDedup l).Nodup :=
  pyDedupGo_nodup l [] List.nodup_nil

theorem pyDedup_mem (l : List String) (x : String) (h : x ∈ l) : x ∈ pyDedup l :=
  pyDedupGo_mem l [] x (Or.inr h)

/-- C10: `generate_search_queries` always returns a non-empty,
duplicate-free list headed by the original query, and the normalized
form is an element whenever it differs from the original (when it does
not differ it is not a separate element, which the duplicate-freeness
contributes). -/
theorem generate_search_queries_shape (pq : ProcessedQuery) :
    generate_search_queries pq ≠ [] ∧
      (generate_search_queries pq).head? = some pq.original ∧
      (generate_search_queries pq).Nodup ∧
      (pq.normalized ≠ pq.original → pq.normalized ∈ generate_search_queries pq) := by
  simp only [generate_search_queries]
  refine ⟨pyDedup_ne_nil _ _, pyDedup_head _ _, pyDedup_nodup _, fun hne => pyDedup_mem _ _ ?_⟩
  simp [hne]

/-- C10 witness: the shape properties instantiated at a concrete analyzer
output whose normalized form differs from the original. -/
theorem generate_search_queries_shape_witness :
    generate_search_queries ⟨"铁塔是啥", "铁塔是什么", ["铁塔"], [], [], "definition", 0.9⟩ ≠ [] ∧
      "铁塔是什么" ∈ generate_search_queries
        ⟨"铁塔是啥", "铁塔是什么", ["铁塔"], [], [], "definition", 0.9⟩ := by
  refine ⟨(generate_search_queries_shape _).1, ?_⟩
  exact (generate_search_queries_shape
    ⟨"铁塔是啥", "铁塔是什么", ["铁塔"], [], [], "definition", 0.9⟩).2.2.2 (by decide)

/-- C2: on the query "hello" the analyzer's type identification (applied,
as `process_query` does, to the normalized query) yields
`('general', 0.5)` — not `greeting`; indeed no query whatsoever is ever
tagged `greeting` by `_identify_query_type`, so the greeting handler of
`retrieve_with_fallback` is unreachable through the analyzer. -/
theorem hello_not_tagged_greeting :
    identify_query_type (normalize_query "hello") = ("general", 0.5) ∧
      ∀ q : String, (identify_query_type q).1 ≠ "greeting" := by
  constructor
  · decide
  · intro q
    unfold identify_query_type
    repeat' split
    all_goals simp

/-- C6: the strategy ladder is exactly the five configurations of
`EnhancedRetriever.__init__`, with thresholds non-increasing and `top_k`
non-decreasing along consecutive strategies. -/
theorem strategies_ladder :
    strategies.map
        (fun s => (s.name, s.vector_threshold, s.graph_threshold, s.bm25_min_score, s.top_k)) =
      [("strict", 0.5, 0.4, 0.25, 30), ("standard", 0.3, 0.2, 0.15, 60),
        ("relaxed", 0.2, 0.1, 0.08, 100), ("fuzzy", 0.15, 0.08, 0.04, 150),
        ("aggressive", 0.1, 0.05, 0.02, 200)] ∧
      strategies.Chain'
        (fun a b =>
          b.vector_threshold ≤ a.vector_threshold ∧ b.graph_threshold ≤ a.graph_threshold ∧
            b.bm25_min_score ≤ a.bm25_min_score ∧ a.top_k ≤ b.top_k) := by
  constructor
  · decide
  · norm_num [strategies, List.chain'_cons, List.chain'_singleton]

/-- C7: `_select_start_strategy` implements exactly the top-down rule
chain of the specification (first match wins), and in particular a query
of length 2 with no entities, low confidence and fewer than three
analyzer keywords starts at index 2 (relaxed). -/
theorem select_start_strategy_rules :
    (∀ pq : ProcessedQuery,
      select_start_strategy pq =
        if pq.query_type ∈ ["specific_inquiry", "commitment_inquiry", "enumeration",
            "classification", "service_inquiry"] then 2
        else if pq.original.length > 20 then 2
        else if pq.keywords.length ≥ 3 then 1
        else if pq.confidence > 0.8 ∧ pq.entities.length > 0 ∧ pq.original.length < 15 then 0
        else if pq.confidence > 0.6 then 1
        else 2) ∧
    (∀ pq : ProcessedQuery, pq.original.length = 2 → pq.entities = [] →
      pq.confidence ≤ 0.6 → pq.keywords.length < 3 → select_start_strategy pq = 2) := by
  constructor
  · intro pq
    rfl
  · intro pq h2 hent hconf hkw
    by_cases hc : pq.query_type ∈ ["specific_inquiry", "commitment_inquiry", "enumeration",
        "classification", "service_inquiry"]
    · simp [select_start_strategy, hc]
    · have h20 : ¬ pq.original.length > 20 := by omega
      have hk3 : ¬ pq.keywords.length ≥ 3 := by omega
      have h8 : ¬ (pq.confidence > 0.8 ∧ pq.entities.length > 0 ∧ pq.original.length < 15) := by
        rintro ⟨-, hb, -⟩
        rw [hent] at hb
        simp at hb
      have h6 : ¬ pq.confidence > 0.6 := by
        intro h
        exact absurd hconf (not_le.mpr h)
      simp [select_start_strategy, hc, h20, hk3, h8, h6]

/-- C7 witness: a two-character query with no entities, confidence 0.5
and a single keyword starts at the relaxed strategy. -/
theorem select_start_strategy_rules_witness :
    select_start_strategy ⟨"ab", "ab", ["ab"], [], [], "general", 0.5⟩ = 2 :=
  select_start_strategy_rules.2 ⟨"ab", "ab", ["ab"], [], [], "general", 0.5⟩
    (by decide) rfl (by norm_num) (by decide)

theorem finalFilter_mem {strategy : RetrievalStrategy} {results : List RetrievalResult}
    {r : RetrievalResult} (h : r ∈ finalFilter strategy results) :
    (dictGetD r.metadata "source_type" (MetaVal.str "unknown") = MetaVal.str "graph" →
        strategy.graph_threshold ≤ r.score) ∧
      (dictGetD r.metadata "source_type" (MetaVal.str "unknown") = MetaVal.str "vector" →
        strategy.vector_threshold ≤ r.score) ∧
      (dictGetD r.metadata "source_type" (MetaVal.str "unknown") ≠ MetaVal.str "graph" →
        dictGetD r.metadata "source_type" (MetaVal.str "unknown") ≠ MetaVal.str "vector" →
        strategy.bm25_min_score ≤ r.score) := by
  have hp := (List.mem_filter.mp h).2
  by_cases hg : dictGetD r.metadata "source_type" (MetaVal.str "unknown") = MetaVal.str "graph"
  · rw [if_pos hg] at hp
    exact ⟨fun _ => of_decide_eq_true hp, fun hv => absurd hg (by rw [hv]; simp),
      fun habs _ => absurd hg habs⟩
  · rw [if_neg hg] at hp
    by_cases hv : dictGetD r.metadata "source_type" (MetaVal.str "unknown") = MetaVal.str "vector"
    · rw [if_pos hv] at hp
      exact ⟨fun hg' => absurd hg' hg, fun _ => of_decide_eq_true hp,
        fun _ habs => absurd hv habs⟩
    · rw [if_neg hv] at hp
      exact ⟨fun hg' => absurd hg' hg, fun hv' => absurd hv' hv,
        fun _ _ => of_decide_eq_true hp⟩

/-- C5: every result returned by `_execute_strategy` satisfies the
threshold belonging to its own `source_type` tag — graph results the
graph threshold, vector results the vector threshold, and anything else
the BM25 floor; no result is admitted on the strength of a threshold
meant for a different source. -/
theorem execute_strategy_threshold_discipline (env : RetrieverEnv)
    (strategy : RetrievalStrategy) (query : String) (r : RetrievalResult)
    (h : r ∈ execute_strategy env strategy query) :
    (dictGetD r.metadata "source_type" (MetaVal.str "unknown") = MetaVal.str "graph" →
        strategy.graph_threshold ≤ r.score) ∧
      (dictGetD r.metadata "source_type" (MetaVal.str "unknown") = MetaVal.str "vector" →
        strategy.vector_threshold ≤ r.score) ∧
      (dictGetD r.metadata "source_type" (MetaVal.str "unknown") ≠ MetaVal.str "graph" →
        dictGetD r.metadata "source_type" (MetaVal.str "unknown") ≠ MetaVal.str "vector" →
        strategy.bm25_min_score ≤ r.score) := by
  unfold execute_strategy at h
  split at h
  · split at h
    · simp at h
    · exact finalFilter_mem h
  · exact finalFilter_mem h

/-- C5 witness: a vector-tagged result admitted by the strict strategy
satisfies the vector threshold. -/
theorem execute_strategy_threshold_discipline_witness :
    (0.5 : ℚ) ≤
      (tagSourceType "vector" { content := "w", score := 0.6, metadata := [] }).score :=
  (execute_strategy_threshold_discipline
    { analyze := fun _ => ⟨"w", "w", [], [], [], "general", 0.5⟩,
      base := some (fun _ _ _ => .ok [{ content := "w", score := 0.6, metadata := [] }]),
      graph := none, hasStorage := false, entityQ := fun _ _ => .ok [],
      fullTextQ := fun _ => .ok [], pipelineError := none }
    ⟨"strict", 0.5, 0.4, 0.25, 30, "严格模式 - 高质量结果"⟩ "w"
    (tagSourceType "vector" { content := "w", score := 0.6, metadata := [] })
    (by decide)).2.1 (by decide)

/-- C9: retrieval error handling.  (i) An exception anywhere inside the
pipeline is caught by the top-level handler of `retrieve_with_fallback`,
which returns the empty result list and a report with `success = false`
and the error message recorded — the call never propagates the
exception.  (ii) A raising base retriever makes `_execute_strategy`
swallow the failure into an empty strategy result (the ladder then
continues with the next strategy).  (iii) A raising graph retriever is
swallowed by the inner handler: the strategy behaves exactly as if no
graph retriever were configured, and the remaining (vector) source still
contributes. -/
theorem retrieval_error_handling :
    (∀ (env : RetrieverEnv) (query e : String), env.pipelineError = some e →
      retrieve_with_fallback env query = ([], { success := false, error := some e })) ∧
      (∀ (env : RetrieverEnv) (strategy : RetrievalStrategy) (query : String)
        (f : String → ℕ → ℚ → Except String (List RetrievalResult)) (m : String),
        env.base = some f → f query strategy.top_k strategy.vector_threshold = .error m →
        execute_strategy env strategy query = []) ∧
      (∀ (env : RetrieverEnv) (strategy : RetrievalStrategy) (query : String)
        (g : String → ℕ → ℚ → Except String (List RetrievalResult)) (m : String),
        env.graph = some g → g query (strategy.top_k / 2) strategy.graph_threshold = .error m →
        execute_strategy env strategy query =
          execute_strategy { env with graph := none } strategy query) := by
  refine ⟨?_, ?_, ?_⟩
  · intro env query e h
    simp [retrieve_with_fallback, h]
  · intro env strategy query f m hb hf
    simp [execute_strategy, hb, hf]
  · intro env strategy query g m hg hgr
    obtain ⟨a, b, g0, s, eq, ft, p⟩ := env
    simp only at hg
    subst hg
    simp [execute_strategy, graphPart, hgr]

/-- C9 witness: the three error-handling clauses at concrete
environments — an injected pipeline exception, a raising base retriever,
and a raising graph retriever next to a working base retriever. -/
theorem retrieval_error_handling_witness :
    retrieve_with_fallback
        { analyze := fun _ => ⟨"q", "q", [], [], [], "general", 0.5⟩, base := none,
          graph := none, hasStorage := false, entityQ := fun _ _ => .ok [],
          fullTextQ := fun _ => .ok [], pipelineError := some "boom" } "q" =
      ([], { success := false, error := some "boom" }) ∧
    execute_strategy
        { analyze := fun _ => ⟨"q", "q", [], [], [], "general", 0.5⟩,
          base := some (fun _ _ _ => .error "down"), graph := none, hasStorage := false,
          entityQ := fun _ _ => .ok [], fullTextQ := fun _ => .ok [], pipelineError := none }
        ⟨"strict", 0.5, 0.4, 0.25, 30, "严格模式 - 高质量结果"⟩ "q" = [] ∧
    execute_strategy
        { analyze := fun _ => ⟨"q", "q", [], [], [], "general", 0.5⟩,
          base := some (fun _ _ _ => .ok []), graph := some (fun _ _ _ => .error "down"),
          hasStorage := false, entityQ := fun _ _ => .ok [], fullTextQ := fun _ => .ok [],
          pipelineError := none }
        ⟨"strict", 0.5, 0.4, 0.25, 30, "严格模式 - 高质量结果"⟩ "q" =
      execute_strategy
        { analyze := fun _ => ⟨"q", "q", [], [], [], "general", 0.5⟩,
          base := some (fun _ _ _ => .ok []), graph := none, hasStorage := false,
          entityQ := fun _ _ => .ok [], fullTextQ := fun _ => .ok [], pipelineError := none }
        ⟨"strict", 0.5, 0.4, 0.25, 30, "严格模式 - 高质量结果"⟩ "q" :=
  ⟨retrieval_error_handling.1 _ "q" "boom" rfl,
    retrieval_error_handling.2.1 _ _ "q" (fun _ _ _ => .error "down") "down" rfl rfl,
    retrieval_error_handling.2.2 _ _ "q" (fun _ _ _ => .error "down") "down" rfl rfl⟩

theorem dedupLoop_exists_append (l : List RetrievalResult) :
    ∀ (seen : List String) (acc : List RetrievalResult),
      ∃ sub, dedupLoop seen acc l = acc ++ sub ∧ sub.Sublist l := by
  induction l with
  | nil => intro seen acc; exact ⟨[], by simp [dedupLoop]⟩
  | cons r rest ih =>
    intro seen acc
    rcases hc : chunkIdTruthy r with - | cid
    · by_cases hs : (lastN acc 3).any (fun e => is_content_similar r.content e.content 0.95)
      · obtain ⟨sub, h1, h2⟩ := ih seen acc
        exact ⟨sub, by simp [dedupLoop, hc, hs, h1], h2.cons r⟩
      · obtain ⟨sub, h1, h2⟩ := ih seen (acc ++ [r])
        refine ⟨r :: sub, ?_, h2.cons₂ r⟩
        simp [dedupLoop, hc, hs, h1]
    · by_cases hin : cid ∈ seen
      · obtain ⟨sub, h1, h2⟩ := ih seen acc
        exact ⟨sub, by simp [dedupLoop, hc, hin, h1], h2.cons r⟩
      · by_cases hs : (lastN acc 3).any (fun e => is_content_similar r.content e.content 0.95)
        · obtain ⟨sub, h1, h2⟩ := ih (cid :: seen) acc
          exact ⟨sub, by simp [dedupLoop, hc, hin, hs, h1], h2.cons r⟩
        · obtain ⟨sub, h1, h2⟩ := ih (cid :: seen) (acc ++ [r])
          refine ⟨r :: sub, ?_, h2.cons₂ r⟩
          simp [dedupLoop, hc, hin, hs, h1]

theorem deduplicate_results_sorted (results : List RetrievalResult) :
    (deduplicate_results results).Sorted scoreGe := by
  unfold deduplicate_results
  split
  · exact List.sorted_nil
  · exact List.sorted_insertionSort scoreGe _

/-- Contraction of the *total* deduplication model: a second application
of `deduplicate_results` returns a sublist of the first application's
output.  (Helper for the fault-faithful statement below, through the
agreement lemma `deduplicate_resultsE_ok`.) -/
theorem deduplicate_results_total_contracting (xs : List RetrievalResult) :
    (deduplicate_results (deduplicate_results xs)).Sublist (deduplicate_results xs) := by
  set Y := deduplicate_results xs with hY
  by_cases hys : Y.isEmpty
  · rw [List.isEmpty_iff.mp hys]
    simp [deduplicate_results]
  · have hsorted : Y.Sorted scoreGe := hY ▸ deduplicate_results_sorted xs
    obtain ⟨sub, h1, h2⟩ := dedupLoop_exists_append Y [] []
    rw [List.nil_append] at h1
    have hsubsorted : sub.Sorted scoreGe := List.Pairwise.sublist h2 hsorted
    have hstep : deduplicate_results Y = sub := by
      simp only [deduplicate_results, if_neg hys]
      rw [h1]
      exact hsubsorted.insertionSort_eq
    rw [hstep]
    exact h2

theorem is_content_similarE_ok {c1 c2 : String} {t : ℚ} {b : Bool}
    (h : is_content_similarE c1 c2 t = .ok b) : is_content_similar c1 c2 t = b := by
  unfold is_content_similarE at h
  split at h
  · exact absurd h (by simp)
  · simpa using h

theorem anySimilarE_ok {c : String} :
    ∀ {l : List RetrievalResult} {b : Bool}, anySimilarE c l = .ok b →
      l.any (fun e => is_content_similar c e.content 0.95) = b := by
  intro l
  induction l with
  | nil =>
    intro b h
    simp only [anySimilarE] at h
    simp [← Except.ok.injEq .. |>.mp h]
  | cons e rest ih =>
    intro b h
    unfold anySimilarE at h
    rcases he : is_content_similarE c e.content 0.95 with m | bb
    · rw [he] at h
      exact absurd h (by simp)
    · rw [he] at h
      have hsim := is_content_similarE_ok he
      cases bb
      · have h' : anySimilarE c rest = .ok b := h
        simp [List.any_cons, hsim, ih h']
      · have h' : b = true := by simpa using (Except.ok.injEq .. |>.mp h).symm
        simp [List.any_cons, hsim, h']

theorem dedupLoopE_ok (l : List RetrievalResult) :
    ∀ (seen : List String) (acc v : List RetrievalResult),
      dedupLoopE seen acc l = .ok v → dedupLoop seen acc l = v := by
  induction l with
  | nil =>
    intro seen acc v h
    simp only [dedupLoopE] at h
    simp [dedupLoop, ← Except.ok.injEq .. |>.mp h]
  | cons r rest ih =>
    intro seen acc v h
    rcases hct : chunkIdTruthy r with - | cid <;>
      simp only [dedupLoopE, hct] at h <;> simp only [dedupLoop, hct]
    · rcases has : anySimilarE r.content (lastN acc 3) with m | bb
      · rw [has] at h
        exact absurd h (by simp)
      · rw [has] at h
        have hany := anySimilarE_ok has
        cases bb
        · have h' : dedupLoopE seen (acc ++ [r]) rest = .ok v := h
          simp [hany, ih _ _ _ h']
        · have h' : dedupLoopE seen acc rest = .ok v := h
          simp [hany, ih _ _ _ h']
    · by_cases hin : cid ∈ seen
      · rw [if_pos hin] at h
        rw [if_pos hin]
        exact ih _ _ _ h
      · rw [if_neg hin] at h
        rw [if_neg hin]
        rcases has : anySimilarE r.content (lastN acc 3) with m | bb
        · rw [has] at h
          exact absurd h (by simp)
        · rw [has] at h
          have hany := anySimilarE_ok has
          cases bb
          · have h' : dedupLoopE (cid :: seen) (acc ++ [r]) rest = .ok v := h
            simp [hany, ih _ _ _ h']
          · have h' : dedupLoopE (cid :: seen) acc rest = .ok v := h
            simp [hany, ih _ _ _ h']

/-- On inputs where no similarity comparison raises, the fault-faithful
deduplication agrees with the total model. -/
theorem deduplicate_resultsE_ok {xs v : List RetrievalResult}
    (h : deduplicate_resultsE xs = .ok v) : deduplicate_results xs = v := by
  unfold deduplicate_resultsE at h
  unfold deduplicate_results
  by_cases he : xs.isEmpty
  · rw [if_pos he] at h
    rw [if_pos he]
    simpa using (Except.ok.injEq .. |>.mp h)
  · rw [if_neg he] at h
    rw [if_neg he]
    rcases hd : dedupLoopE [] [] xs with m | w
    · rw [hd] at h
      exact absurd h (by simp [Except.map])
    · rw [hd] at h
      rw [dedupLoopE_ok xs [] [] w hd]
      simpa [Except.map] using h

/-- C4 (amended): deduplication is contracting but not idempotent —
whenever a first and a second application of `_deduplicate_results` both
return normally, the second application's output is a sublist of the
first's (a second pass can only drop further results, never add or
reorder); yet it can genuinely drop more, because the score-descending
sort moves near-duplicates that were more than three positions apart in
strategy order into the three-element comparison window — and on results
with empty content a second pass need not return at all
(`deduplicate_resultsE_second_pass_raises`). -/
theorem deduplicate_resultsE_contracting (xs ys zs : List RetrievalResult)
    (h1 : deduplicate_resultsE xs = .ok ys) (h2 : deduplicate_resultsE ys = .ok zs) :
    zs.Sublist ys := by
  have hy := deduplicate_resultsE_ok h1
  have hz := deduplicate_resultsE_ok h2
  rw [← hz, ← hy]
  exact deduplicate_results_total_contracting xs

/-- Five results — two with identical content "dd ee" (scores 0.9 and
0.8) separated in strategy order by three pairwise-dissimilar results
(scores 0.3, 0.2, 0.15). -/
def dedupCounterexampleInput : List RetrievalResult :=
  [{ content := "dd ee", score := 0.9, metadata := [] },
    { content := "ffffffffffff", score := 0.3, metadata := [] },
    { content := "ggggggggggggggggggggggggg", score := 0.2, metadata := [] },
    { content := "hhhhhhhhhhhhhhhhhhhhhhhhhhhhhhhhhhhhhhhhhhhhhhhhhhhhhhhhhhhh",
      score := 0.15, metadata := [] },
    { content := "dd ee", score := 0.8, metadata := [] }]

/-- What one pass of `_deduplicate_results` makes of
`dedupCounterexampleInput`: all five survive (the duplicate pair is
never within the three-element window), sorted by score descending. -/
def dedupCounterexampleFirstPass : List RetrievalResult :=
  [{ content := "dd ee", score := 0.9, metadata := [] },
    { content := "dd ee", score := 0.8, metadata := [] },
    { content := "ffffffffffff", score := 0.3, metadata := [] },
    { content := "ggggggggggggggggggggggggg", score := 0.2, metadata := [] },
    { content := "hhhhhhhhhhhhhhhhhhhhhhhhhhhhhhhhhhhhhhhhhhhhhhhhhhhhhhhhhhhh",
      score := 0.15, metadata := [] }]

/-- What a second pass makes of the first pass's output: the sort made
the duplicate pair adjacent, so the 0.8 copy is dropped. -/
def dedupCounterexampleSecondPass : List RetrievalResult :=
  [{ content := "dd ee", score := 0.9, metadata := [] },
    { content := "ffffffffffff", score := 0.3, metadata := [] },
    { content := "ggggggggggggggggggggggggg", score := 0.2, metadata := [] },
    { content := "hhhhhhhhhhhhhhhhhhhhhhhhhhhhhhhhhhhhhhhhhhhhhhhhhhhhhhhhhhhh",
      score := 0.15, metadata := [] }]

/-- C4 counterexample, in the fault-faithful model: both passes return
normally, the first yields five results, the second only four — so
`dedup (dedup xs)` differs from `dedup xs`, refuting idempotence. -/
theorem deduplicate_results_not_idempotent :
    deduplicate_resultsE dedupCounterexampleInput = .ok dedupCounterexampleFirstPass ∧
      deduplicate_resultsE dedupCounterexampleFirstPass =
        .ok dedupCounterexampleSecondPass ∧
      dedupCounterexampleSecondPass ≠ dedupCounterexampleFirstPass := by
  refine ⟨by decide, by decide, by decide⟩

/-- C4 witness: the contraction applied at the concrete five-element
input, both success hypotheses discharged by evaluation. -/
theorem deduplicate_resultsE_contracting_witness :
    dedupCounterexampleSecondPass.Sublist dedupCounterexampleFirstPass :=
  deduplicate_resultsE_contracting dedupCounterexampleInput dedupCounterexampleFirstPass
    dedupCounterexampleSecondPass (by decide) (by decide)

/-- Two empty-content results (scores 0.9 and 0.85) separated in
strategy order by three pairwise-dissimilar results. -/
def emptyContentCrashInput : List RetrievalResult :=
  [{ content := "", score := 0.9, metadata := [] },
    { content := "ffffffffffff", score := 0.3, metadata := [] },
    { content := "ggggggggggggggggggggggggg", score := 0.2, metadata := [] },
    { content := "hhhhhhhhhhhhhhhhhhhhhhhhhhhhhhhhhhhhhhhhhhhhhhhhhhhhhhhhhhhh",
      score := 0.15, metadata := [] },
    { content := "", score := 0.85, metadata := [] }]

/-- First-pass output for `emptyContentCrashInput`: all five survive
(every comparison is empty-versus-non-empty and short-circuits on the
length imbalance), sorted by score descending — which makes the two
empty-content results adjacent. -/
def emptyContentCrashFirstPass : List RetrievalResult :=
  [{ content := "", score := 0.9, metadata := [] },
    { content := "", score := 0.85, metadata := [] },
    { content := "ffffffffffff", score := 0.3, metadata := [] },
    { content := "ggggggggggggggggggggggggg", score := 0.2, metadata := [] },
    { content := "hhhhhhhhhhhhhhhhhhhhhhhhhhhhhhhhhhhhhhhhhhhhhhhhhhhhhhhhhhhh",
      score := 0.15, metadata := [] }]

/-- The success hypotheses of `deduplicate_resultsE_contracting` are not
vacuous and cannot be dropped: on `emptyContentCrashInput` the first
pass returns normally, but the second pass reaches an
empty-versus-empty comparison inside the three-element window and
raises `ZeroDivisionError`, so a second pass need not return a sublist
— it need not return at all. -/
theorem deduplicate_resultsE_second_pass_raises :
    deduplicate_resultsE emptyContentCrashInput = .ok emptyContentCrashFirstPass ∧
      deduplicate_resultsE emptyContentCrashFirstPass = .error "ZeroDivisionError" := by
  refine ⟨by decide, by decide⟩

theorem strategyRawResults_empty (env : RetrieverEnv)
    (h : ∀ s sq, execute_strategy env s sq = []) (s : RetrievalStrategy) :
    ∀ qs : List String, strategyRawResults env s qs = [] := by
  intro qs
  induction qs with
  | nil => rfl
  | cons q rest ih => simp [strategyRawResults, h, ih]

theorem tryStrategies_none (env : RetrieverEnv) (qs : List String)
    (h : ∀ s sq, execute_strategy env s sq = []) :
    ∀ strats : List RetrievalStrategy, tryStrategies env qs strats = none := by
  intro strats
  induction strats with
  | nil => rfl
  | cons s rest ih =>
    simp [tryStrategies, strategyRawResults_empty env h s qs, deduplicate_results, ih]

theorem entityQueryLoop_empty (env : RetrieverEnv) (t : String)
    (h : ∀ i t, env.entityQ i t = Except.ok []) :
    ∀ idxs : List ℕ, entityQueryLoop env t idxs = [] := by
  intro idxs
  induction idxs with
  | nil => rfl
  | cons i rest ih => simp [entityQueryLoop, h, ih]

theorem entityTermLoop_empty (env : RetrieverEnv)
    (h : ∀ i t, env.entityQ i t = Except.ok []) :
    ∀ ts : List String, entityTermLoop env ts = [] := by
  intro ts
  induction ts with
  | nil => rfl
  | cons t rest ih =>
    by_cases ht : t.length < 1
    · simp [entityTermLoop, ht, ih]
    · simp [entityTermLoop, ht, entityQueryLoop_empty env t h, ih]

theorem fullTextLoop_empty (env : RetrieverEnv)
    (h : ∀ t, env.fullTextQ t = Except.ok []) :
    ∀ (ts : List String) (acc : List RetrievalResult), fullTextLoop env acc ts = acc := by
  intro ts
  induction ts with
  | nil => intro acc; rfl
  | cons t rest ih =>
    intro acc
    by_cases ht : t.length < 2
    · simp [fullTextLoop, ht, ih]
    · simp [fullTextLoop, ht, h, ih]

theorem direct_entity_search_exhausted (env : RetrieverEnv) (pq : ProcessedQuery)
    (hstor : env.hasStorage = true) (hent : ∀ i t, env.entityQ i t = Except.ok [])
    (hft : ∀ t, env.fullTextQ t = Except.ok []) :
    direct_entity_search env pq = [fallbackResult pq] := by
  simp [direct_entity_search, hstor, entityTermLoop_empty env hent,
    fullTextLoop_empty env hft, deduplicate_results]

/-- C3 (amended): when every ladder strategy yields an empty deduplicated
result list and both the direct-entity Cypher queries and the full-text
scan return zero rows, `retrieve_with_fallback` returns exactly one
fallback-advisory `RetrievalResult` — but the emitted report has
`success = true` (the source computes `success` as
`len(all_results) > 0`, and the advisory itself counts), with
`strategy_used = 'entity_search'`. -/
theorem ladder_exhaustion_returns_advisory (env : RetrieverEnv) (query : String)
    (herr : env.pipelineError = none)
    (hg : (env.analyze query).query_type ≠ "greeting")
    (hm : (env.analyze query).query_type ≠ "meaningless")
    (hstrat : ∀ s sq, execute_strategy env s sq = [])
    (hstor : env.hasStorage = true)
    (hent : ∀ i t, env.entityQ i t = Except.ok [])
    (hft : ∀ t, env.fullTextQ t = Except.ok []) :
    retrieve_with_fallback env query =
      ([fallbackResult (env.analyze query)],
        { original_query := some query, processed_query := some (env.analyze query),
          search_queries := some (generate_search_queries (env.analyze query)),
          strategy_used := some "entity_search", total_results := some 1, success := true }) := by
  simp [retrieve_with_fallback, herr, hg, hm, tryStrategies_none env _ hstrat,
    direct_entity_search_exhausted env _ hstor hent hft]

/-- The analyzer output used by the concrete exhaustion scenario: the
`jieba`-backed analyzer on "xyzzy" (no CJK patterns match, no keywords of
length > 1 survive, no entities) produces type `general`, confidence
0.5. -/
def pqXyzzy : ProcessedQuery := ⟨"xyzzy", "xyzzy", [], [], [], "general", 0.5⟩

/-- Environment in which every retrieval source and storage query
returns zero rows. -/
def envLadderEmpty : RetrieverEnv :=
  { analyze := fun _ => pqXyzzy, base := some (fun _ _ _ => .ok []), graph := none,
    hasStorage := true, entityQ := fun _ _ => .ok [], fullTextQ := fun _ => .ok [],
    pipelineError := none }

/-- C3 counterexample: in the concrete exhaustion scenario on "xyzzy"
the pipeline indeed returns exactly the one advisory result, but the
report's `success` field is `true`, not `false` as claimed. -/
theorem ladder_exhaustion_success_not_false :
    (retrieve_with_fallback envLadderEmpty "xyzzy").1 = [fallbackResult pqXyzzy] ∧
      (retrieve_with_fallback envLadderEmpty "xyzzy").2.strategy_used = some "entity_search" ∧
      (retrieve_with_fallback envLadderEmpty "xyzzy").2.success ≠ false := by
  refine ⟨rfl, rfl, ?_⟩
  decide

/-- C3 witness: the amended statement instantiated at the concrete
all-empty environment. -/
theorem ladder_exhaustion_returns_advisory_witness :
    retrieve_with_fallback envLadderEmpty "xyzzy" =
      ([fallbackResult pqXyzzy],
        { original_query := some "xyzzy", processed_query := some pqXyzzy,
          search_queries := some (generate_search_queries pqXyzzy),
          strategy_used := some "entity_search", total_results := some 1, success := true }) :=
  ladder_exhaustion_returns_advisory envLadderEmpty "xyzzy" rfl (by decide) (by decide)
    (fun s sq => rfl) rfl (fun i t => rfl) (fun t => rfl)

/-- The base retriever's response function for one search query
(`None` when the base retriever has no `retrieve` method). -/
def baseAt (env : RetrieverEnv) (sq : String) :
    Option (ℕ → ℚ → Except String (List RetrievalResult)) :=
  env.base.map (fun f => f sq)

/-- The graph retriever's response function for one search query. -/
def graphAt (env : RetrieverEnv) (sq : String) :
    Option (ℕ → ℚ → Except String (List RetrievalResult)) :=
  env.graph.map (fun g => g sq)

theorem graphPart_congr (e1 e2 : RetrieverEnv) (s : RetrievalStrategy) (sq : String)
    (hg : graphAt e1 sq = graphAt e2 sq) : graphPart e1 s sq = graphPart e2 s sq := by
  unfold graphPart
  rcases h1 : e1.graph with - | g1 <;> rcases h2 : e2.graph with - | g2 <;>
    simp [graphAt, h1, h2] at hg ⊢
  rw [hg]

theorem execute_strategy_congr (e1 e2 : RetrieverEnv) (s : RetrievalStrategy) (sq : String)
    (hb : baseAt e1 sq = baseAt e2 sq) (hg : graphAt e1 sq = graphAt e2 sq) :
    execute_strategy e1 s sq = execute_strategy e2 s sq := by
  have hgp := graphPart_congr e1 e2 s sq hg
  unfold execute_strategy
  rcases h1 : e1.base with - | f1 <;> rcases h2 : e2.base with - | f2 <;>
    simp [baseAt, h1, h2] at hb ⊢
  · rw [hgp]
  · rw [hb, hgp]

theorem strategyRawResults_congr (e1 e2 : RetrieverEnv) (s : RetrievalStrategy)
    (qs : List String)
    (h : ∀ sq ∈ qs, execute_strategy e1 s sq = execute_strategy e2 s sq) :
    strategyRawResults e1 s qs = strategyRawResults e2 s qs := by
  induction qs with
  | nil => rfl
  | cons q rest ih =>
    simp only [strategyRawResults]
    rw [h q (by simp), ih (fun sq hsq => h sq (by simp [hsq]))]

theorem tryStrategies_congr (e1 e2 : RetrieverEnv) (qs : List String)
    (h : ∀ (s : RetrievalStrategy), ∀ sq ∈ qs,
      execute_strategy e1 s sq = execute_strategy e2 s sq) :
    ∀ strats : List RetrievalStrategy, tryStrategies e1 qs strats = tryStrategies e2 qs strats := by
  intro strats
  induction strats with
  | nil => rfl
  | cons s rest ih =>
    simp only [tryStrategies]
    rw [strategyRawResults_congr e1 e2 s qs (h s), ih]

theorem entityQueryLoop_congr (e1 e2 : RetrieverEnv) (t : String)
    (he : e1.entityQ = e2.entityQ) :
    ∀ idxs : List ℕ, entityQueryLoop e1 t idxs = entityQueryLoop e2 t idxs := by
  intro idxs
  induction idxs with
  | nil => rfl
  | cons i rest ih => simp only [entityQueryLoop]; rw [he, ih]

theorem entityTermLoop_congr (e1 e2 : RetrieverEnv) (he : e1.entityQ = e2.entityQ) :
    ∀ ts : List String, entityTermLoop e1 ts = entityTermLoop e2 ts := by
  intro ts
  induction ts with
  | nil => rfl
  | cons t rest ih =>
    simp only [entityTermLoop]
    rw [entityQueryLoop_congr e1 e2 t he, ih]

theorem fullTextLoop_congr (e1 e2 : RetrieverEnv) (hf : e1.fullTextQ = e2.fullTextQ) :
    ∀ (ts : List String) (acc : List RetrievalResult),
      fullTextLoop e1 acc ts = fullTextLoop e2 acc ts := by
  intro ts
  induction ts with
  | nil => intro acc; rfl
  | cons t rest ih =>
    intro acc
    simp only [fullTextLoop]
    rw [hf]
    split
    · exact ih acc
    · split
      · rfl
      · exact ih _

theorem direct_entity_search_congr (e1 e2 : RetrieverEnv) (pq : ProcessedQuery)
    (hs : e1.hasStorage = e2.hasStorage) (he : e1.entityQ = e2.entityQ)
    (hf : e1.fullTextQ = e2.fullTextQ) :
    direct_entity_search e1 pq = direct_entity_search e2 pq := by
  unfold direct_entity_search
  simp only [hs, entityTermLoop_congr e1 e2 he, fullTextLoop_congr e1 e2 hf]

/-- C1 (amended): `retrieve_with_fallback` issues sub-retrievals for
*every* expanded search query produced by the analyzer — there is no cap
at 3.  Stated as a frame property: two environments that agree on the
analyzer, the storage queries and the pipeline status, and whose base
and graph retrievers respond identically on the *full* generated query
list, produce identical retrievals. -/
theorem retrieve_with_fallback_uses_all_queries (e1 e2 : RetrieverEnv) (query : String)
    (hA : e1.analyze = e2.analyze) (hS : e1.hasStorage = e2.hasStorage)
    (hE : e1.entityQ = e2.entityQ) (hF : e1.fullTextQ = e2.fullTextQ)
    (hP : e1.pipelineError = e2.pipelineError)
    (hB : ∀ sq ∈ generate_search_queries (e1.analyze query), baseAt e1 sq = baseAt e2 sq)
    (hG : ∀ sq ∈ generate_search_queries (e1.analyze query), graphAt e1 sq = graphAt e2 sq) :
    retrieve_with_fallback e1 query = retrieve_with_fallback e2 query := by
  rw [hA] at hB hG
  unfold retrieve_with_fallback
  rw [hP, hA]
  rcases he : e2.pipelineError with - | e
  · simp only
    rw [tryStrategies_congr e1 e2 (generate_search_queries (e2.analyze query))
        (fun s sq hsq => execute_strategy_congr e1 e2 s sq (hB sq hsq) (hG sq hsq)),
      direct_entity_search_congr e1 e2 (e2.analyze query) hS hE hF]
  · rfl

/-- Analyzer output with four expanded search queries
(["t1", "kw1 kw2", "ent33", "ent44"]). -/
def pqFourQueries : ProcessedQuery :=
  ⟨"t1", "t1", ["kw1", "kw2"], ["ent33", "ent44"], [], "general", 0.5⟩

/-- Base environment for the cap counterexample: every sub-retrieval
returns zero results. -/
def envCapA : RetrieverEnv :=
  { analyze := fun _ => pqFourQueries, base := some (fun _ _ _ => .ok []), graph := none,
    hasStorage := false, entityQ := fun _ _ => .ok [], fullTextQ := fun _ => .ok [],
    pipelineError := none }

/-- Same environment except that the base retriever answers the *fourth*
expanded search query ("ent44") with one high-scoring result. -/
def envCapB : RetrieverEnv :=
  { analyze := fun _ => pqFourQueries,
    base := some (fun q _ _ =>
      if q = "ent44" then .ok [{ content := "zz", score := 0.9, metadata := [] }] else .ok []),
    graph := none, hasStorage := false, entityQ := fun _ _ => .ok [],
    fullTextQ := fun _ => .ok [], pipelineError := none }

/-- C1 counterexample: the analyzer produces four expanded search
queries; two environments whose sub-retrieval responses agree on the
first three queries (and everywhere else) nevertheless yield different
retrievals — the run that answers only the fourth query returns one
result where the other returns none.  Hence `retrieve_with_fallback`
does not restrict itself to the first 3 expanded queries. -/
theorem retrieve_with_fallback_no_query_cap :
    (generate_search_queries pqFourQueries).take 3 = ["t1", "kw1 kw2", "ent33"] ∧
      (generate_search_queries pqFourQueries).length = 4 ∧
      baseAt envCapA "t1" = baseAt envCapB "t1" ∧
      baseAt envCapA "kw1 kw2" = baseAt envCapB "kw1 kw2" ∧
      baseAt envCapA "ent33" = baseAt envCapB "ent33" ∧
      graphAt envCapA "t1" = graphAt envCapB "t1" ∧
      graphAt envCapA "kw1 kw2" = graphAt envCapB "kw1 kw2" ∧
      graphAt envCapA "ent33" = graphAt envCapB "ent33" ∧
      (retrieve_with_fallback envCapA "t1").1.length = 0 ∧
      (retrieve_with_fallback envCapB "t1").1.length = 1 :=
  ⟨by decide, by decide, rfl, rfl, rfl, rfl, rfl, rfl, by decide, by decide⟩

/-- C1 witness: the amended frame property instantiated at `envCapB` and
a variant whose base retriever differs only on a string that is not
among the four generated queries; the retrieval outcomes coincide. -/
theorem retrieve_with_fallback_uses_all_queries_witness :
    retrieve_with_fallback envCapB "t1" =
      retrieve_with_fallback
        { analyze := fun _ => pqFourQueries,
          base := some (fun q _ _ =>
            if q = "unrelated-query" then .error "boom"
            else if q = "ent44" then
              .ok [{ content := "zz", score := 0.9, metadata := [] }]
            else .ok []),
          graph := none, hasStorage := false, entityQ := fun _ _ => .ok [],
          fullTextQ := fun _ => .ok [], pipelineError := none } "t1" := by
  refine retrieve_with_fallback_uses_all_queries _ _ "t1" rfl rfl rfl rfl rfl ?_ ?_
  · intro sq hsq
    have h4 : generate_search_queries (envCapB.analyze "t1") =
        ["t1", "kw1 kw2", "ent33", "ent44"] := by decide
    rw [h4] at hsq
    fin_cases hsq <;> rfl
  · intro sq hsq
    rfl

theorem dictBucket_dictAppend {α : Type} (d : List (String × List α)) (k : String) (v : α)
    (k' : String) :
    dictBucket (dictAppend d k v) k' =
      if k' = k then dictBucket d k' ++ [v] else dictBucket d k' := by
  induction d with
  | nil =>
    by_cases h : k' = k
    · subst h
      simp [dictAppend, dictBucket]
    · have h' : ¬ k = k' := fun hh => h hh.symm
      simp [dictAppend, dictBucket, h, h']
  | cons p rest ih =>
    obtain ⟨k0, vs⟩ := p
    by_cases h0 : k0 = k
    · subst h0
      by_cases h1 : k' = k0
      · subst h1
        simp [dictAppend, dictBucket]
      · have h1' : ¬ k0 = k' := fun hh => h1 hh.symm
        simp [dictAppend, dictBucket, h1, h1']
    · by_cases h1 : k0 = k'
      · subst h1
        have h0' : ¬ k0 = k := h0
        simp [dictAppend, dictBucket, h0']
      · simp [dictAppend, dictBucket, h0, h1, ih]

theorem mem_dictBucket_dictAppend {α : Type} {d : List (String × List α)} {k' : String}
    {x : α} (k : String) (v : α) (h : x ∈ dictBucket d k') :
    x ∈ dictBucket (dictAppend d k v) k' := by
  rw [dictBucket_dictAppend]
  split
  · exact List.mem_append_left _ h
  · exact h

theorem self_mem_dictBucket_dictAppend {α : Type} (d : List (String × List α)) (k : String)
    (v : α) : v ∈ dictBucket (dictAppend d k v) k := by
  rw [dictBucket_dictAppend]
  simp

theorem spoStep_mono (kg : KnowledgeGraph) (acc : SPOIndex) (r' : Relationship)
    (name pred oname : String) (es : SubjectEntry) (ep : PredicateEntry) (eo : ObjectEntry) :
    (es ∈ dictBucket acc.subject_index name →
        es ∈ dictBucket (spoStep kg acc r').subject_index name) ∧
      (ep ∈ dictBucket acc.predicate_index pred →
        ep ∈ dictBucket (spoStep kg acc r').predicate_index pred) ∧
      (eo ∈ dictBucket acc.object_index oname →
        eo ∈ dictBucket (spoStep kg acc r').object_index oname) := by
  unfold spoStep
  split
  · exact ⟨fun h => mem_dictBucket_dictAppend _ _ h, fun h => mem_dictBucket_dictAppend _ _ h,
      fun h => mem_dictBucket_dictAppend _ _ h⟩
  · exact ⟨id, id, id⟩

theorem spo_fold_mono (kg : KnowledgeGraph) (rels : List Relationship) :
    ∀ (acc : SPOIndex) (name pred oname : String) (es : SubjectEntry) (ep : PredicateEntry)
      (eo : ObjectEntry),
      (es ∈ dictBucket acc.subject_index name →
          es ∈ dictBucket (rels.foldl (spoStep kg) acc).subject_index name) ∧
        (ep ∈ dictBucket acc.predicate_index pred →
          ep ∈ dictBucket (rels.foldl (spoStep kg) acc).predicate_index pred) ∧
        (eo ∈ dictBucket acc.object_index oname →
          eo ∈ dictBucket (rels.foldl (spoStep kg) acc).object_index oname) := by
  induction rels with
  | nil => intro acc name pred oname es ep eo; exact ⟨id, id, id⟩
  | cons r0 rest ih =>
    intro acc name pred oname es ep eo
    simp only [List.foldl_cons]
    obtain ⟨h1, h2, h3⟩ := ih (spoStep kg acc r0) name pred oname es ep eo
    obtain ⟨g1, g2, g3⟩ := spoStep_mono kg acc r0 name pred oname es ep eo
    exact ⟨fun h => h1 (g1 h), fun h => h2 (g2 h), fun h => h3 (g3 h)⟩

theorem spo_fold_contains (kg : KnowledgeGraph) (rels : List Relationship) :
    ∀ (acc : SPOIndex) (r : Relationship) (se te : Entity), r ∈ rels →
      kg.get_entity r.source_entity_id = some se →
      kg.get_entity r.target_entity_id = some te →
      (⟨r.relation_type, te.name, r.id⟩ : SubjectEntry) ∈
          dictBucket (rels.foldl (spoStep kg) acc).subject_index se.name ∧
        (⟨se.name, te.name, r.id⟩ : PredicateEntry) ∈
          dictBucket (rels.foldl (spoStep kg) acc).predicate_index r.relation_type ∧
        (⟨se.name, r.relation_type, r.id⟩ : ObjectEntry) ∈
          dictBucket (rels.foldl (spoStep kg) acc).object_index te.name := by
  induction rels with
  | nil => intro acc r se te hr; exact absurd hr (by simp)
  | cons r0 rest ih =>
    intro acc r se te hr hse hte
    simp only [List.foldl_cons]
    rcases List.mem_cons.mp hr with heq | hmem
    · subst heq
      have hstep : spoStep kg acc r =
          { subject_index := dictAppend acc.subject_index se.name ⟨r.relation_type, te.name, r.id⟩,
            predicate_index :=
              dictAppend acc.predicate_index r.relation_type ⟨se.name, te.name, r.id⟩,
            object_index :=
              dictAppend acc.object_index te.name ⟨se.name, r.relation_type, r.id⟩ } := by
        unfold spoStep
        rw [hse, hte]
      obtain ⟨m1, m2, m3⟩ := spo_fold_mono kg rest (spoStep kg acc r) se.name r.relation_type
        te.name ⟨r.relation_type, te.name, r.id⟩ ⟨se.name, te.name, r.id⟩
        ⟨se.name, r.relation_type, r.id⟩
      refine ⟨m1 ?_, m2 ?_, m3 ?_⟩ <;> rw [hstep]
      · exact self_mem_dictBucket_dictAppend _ _ _
      · exact self_mem_dictBucket_dictAppend _ _ _
      · exact self_mem_dictBucket_dictAppend _ _ _
    · exact ih (spoStep kg acc r0) r se te hmem hse hte

/-- C8: after `_build_spo_index` runs with a key-value storage
available, the index persisted under the key `spo_index` contains, for
every relationship whose two endpoints resolve to entities of the graph,
that relationship's id in all three maps — under the source entity's
name in `subject_index`, under the relation type in `predicate_index`,
and under the target entity's name in `object_index`. -/
theorem build_spo_index_complete (kg : KnowledgeGraph) (kv0 : String → Option SPOIndex)
    (r : Relationship) (se te : Entity) (hr : r ∈ kg.relationships)
    (hse : kg.get_entity r.source_entity_id = some se)
    (hte : kg.get_entity r.target_entity_id = some te) :
    build_spo_index_run true kv0 kg "spo_index" = some (build_spo_index kg) ∧
      r.id ∈
        (dictBucket (build_spo_index kg).subject_index se.name).map
          SubjectEntry.relationship_id ∧
      r.id ∈
        (dictBucket (build_spo_index kg).predicate_index r.relation_type).map
          PredicateEntry.relationship_id ∧
      r.id ∈
        (dictBucket (build_spo_index kg).object_index te.name).map
          ObjectEntry.relationship_id := by
  refine ⟨by simp [build_spo_index_run], ?_, ?_, ?_⟩
  all_goals
    obtain ⟨h1, h2, h3⟩ := spo_fold_contains kg kg.relationships ⟨[], [], []⟩ r se te hr hse hte
  · exact List.mem_map.mpr ⟨_, h1, rfl⟩
  · exact List.mem_map.mpr ⟨_, h2, rfl⟩
  · exact List.mem_map.mpr ⟨_, h3, rfl⟩

/-- The one-relationship graph of the C8 witness. -/
def kgWitness : KnowledgeGraph :=
  { relationships := [⟨"r1", "e1", "e2", "works_for"⟩],
    get_entity := fun i =>
      if i = "e1" then some ⟨"e1", "Alice"⟩
      else if i = "e2" then some ⟨"e2", "Bob"⟩ else none }

/-- C8 witness: a one-relationship graph; the persisted index holds the
relationship id in all three buckets. -/
theorem build_spo_index_complete_witness :
    build_spo_index_run true (fun _ => none) kgWitness "spo_index" =
        some (build_spo_index kgWitness) ∧
      "r1" ∈
        (dictBucket (build_spo_index kgWitness).subject_index "Alice").map
          SubjectEntry.relationship_id ∧
      "r1" ∈
        (dictBucket (build_spo_index kgWitness).predicate_index "works_for").map
          PredicateEntry.relationship_id ∧
      "r1" ∈
        (dictBucket (build_spo_index kgWitness).object_index "Bob").map
          ObjectEntry.relationship_id :=
  build_spo_index_complete kgWitness (fun _ => none) ⟨"r1", "e1", "e2", "works_for"⟩
    ⟨"e1", "Alice"⟩ ⟨"e2", "Bob"⟩ (by simp [kgWitness]) rfl rfl
